import Mathlib

/-!
# Verification of `luxfi/const` (package `constants`)

A shallow embedding of `network.go`: the network identifiers, the four
lookup tables and the three resolvers `NetworkName`, `NetworkID`, `GetHRP`;
and of `compression.go`: the type `CompressionType` with `String`,
`CompressionTypeFromString` and `MarshalJSON`.

## Modelling conventions

* `uint32` / `uint64` values are `Nat`; wrap-around is written `% 2 ^ w`
  wherever the Go code could overflow or converts between widths.
* A Go `string` is a Lean `String`, i.e. a sequence of Unicode code points
  (Go strings holding well-formed UTF-8).  The byte-wise library functions
  used by the package (`strings.HasPrefix`, `strings.TrimPrefix`,
  `strconv.ParseUint`) are transported to code points; every string the
  package compares against is ASCII, and `ParseUint` rejects a byte above
  `0x7F` exactly as it rejects a code point above `0x7F`.
* A Go `(T, error)` result is a pair whose second component is `none` for
  a `nil` error.
* A `byte` is a `Nat`, a `[]byte` a list of them; `[]byte(s)` is the UTF-8
  encoding of the code points of `s` (`stringBytes`).
* A Go map literal is the list of its entries in source order; a lookup
  returns the value of the last entry with that key (`mapGet`).
* Two things the package uses are declared outside the two source files and
  are parameters of the embedding: the constants `QChainMainnetID` and
  `QChainTestnetID`, and the non-ASCII part of the Unicode case tables behind
  `unicode.ToLower` (`caseTable`).
-/

namespace Constants

/-! ## Go runtime and standard library -/

/-- The package level error values of `network.go` and `compression.go`. -/
inductive GoError
  | ErrUnknownNetworkID
  | ErrUnknownNetworkName
  | errUnknownCompressionType
  deriving DecidableEq, Repr

/-- The error kinds of `strconv.ParseUint`. -/
inductive NumError
  | ErrSyntax
  | ErrRange
  | ErrBitSize
  deriving DecidableEq, Repr

/-- Lookup `v, ok := m[k]` in a map literal given as its entry list: the last
entry written for `k` is the one stored. -/
def mapGet {κ ν : Type} [DecidableEq κ] (m : List (κ × ν)) (k : κ) : Option ν :=
  m.foldl (fun found e => if e.1 = k then some e.2 else found) none

/-- The key set of a map literal. -/
def mapKeys {κ ν : Type} (m : List (κ × ν)) : List κ :=
  m.map Prod.fst

/-- The rune mapping `unicode.ToLower`: ASCII is handled inline, every other
rune goes through the Unicode case tables, here the parameter `caseTable`. -/
def unicodeToLower (caseTable : Char → Char) (r : Char) : Char :=
  if r.toNat ≤ 0x7F then
    if 'A'.toNat ≤ r.toNat ∧ r.toNat ≤ 'Z'.toNat then
      Char.ofNat (r.toNat + ('a'.toNat - 'A'.toNat))
    else r
  else caseTable r

/-- The byte update `c += 'a' - 'A'` of the ASCII fast path of
`strings.ToLower`, applied to upper-case letters only. -/
def asciiLowerByte (c : Char) : Char :=
  if 'A'.toNat ≤ c.toNat ∧ c.toNat ≤ 'Z'.toNat then
    Char.ofNat ((c.toNat + ('a'.toNat - 'A'.toNat)) % 256)
  else c

/-- Model of `strings.ToLower`: an ASCII-only string is returned unchanged
when it has no upper-case letter and is lowered byte by byte otherwise; any
other string is mapped rune by rune through `unicode.ToLower`. -/
def ToLower (caseTable : Char → Char) (s : String) : String :=
  let isASCII := s.data.all (fun c => decide (c.toNat < 0x80))
  let hasUpper := s.data.any (fun c => decide ('A'.toNat ≤ c.toNat ∧ c.toNat ≤ 'Z'.toNat))
  if isASCII then
    if !hasUpper then s else String.mk (s.data.map asciiLowerByte)
  else String.mk (s.data.map (unicodeToLower caseTable))

/-- Model of `strings.HasPrefix`:
`len(s) >= len(prefix) && s[:len(prefix)] == prefix`. -/
def HasPrefix (s pre : String) : Bool :=
  decide (pre.data.length ≤ s.data.length) && decide (s.data.take pre.data.length = pre.data)

/-- Model of `strings.TrimPrefix`: `s[len(prefix):]` when `s` has the prefix,
else `s`. -/
def TrimPrefix (s pre : String) : String :=
  if HasPrefix s pre then String.mk (s.data.drop pre.data.length) else s

/-- The digit loop of `strconv.ParseUint` for a base between 2 and 36 (so the
underscore case, which needs base 0, is dead): `n` is the `uint64`
accumulator. -/
def parseUintLoop (base cutoff maxVal : Nat) : List Char → Nat → Nat × Option NumError
  | [], n => (n, none)
  | c :: cs, n =>
    let lower := c.toNat ||| ('x'.toNat - 'X'.toNat)
    let digit : Option Nat :=
      if '0'.toNat ≤ c.toNat ∧ c.toNat ≤ '9'.toNat then some (c.toNat - '0'.toNat)
      else if 'a'.toNat ≤ lower ∧ lower ≤ 'z'.toNat then some ((lower - 'a'.toNat + 10) % 256)
      else none
    match digit with
    | none => (0, some NumError.ErrSyntax)
    | some d =>
      if d ≥ base % 256 then (0, some NumError.ErrSyntax)
      else if n ≥ cutoff then (maxVal, some NumError.ErrRange)
      else
        let n0 := (n * base) % 2 ^ 64
        let n1 := (n0 + d) % 2 ^ 64
        if n1 < n0 ∨ n1 > maxVal then (maxVal, some NumError.ErrRange)
        else parseUintLoop base cutoff maxVal cs n1

/-- Model of `strconv.ParseUint(s, 10, bitSize)`. -/
def ParseUint10 (s : String) (bitSize : Nat) : Nat × Option NumError :=
  if s.data = [] then (0, some NumError.ErrSyntax)
  else if bitSize > 64 then (0, some NumError.ErrBitSize)
  else
    let bits := if bitSize = 0 then 64 else bitSize
    let cutoff := (2 ^ 64 - 1) / 10 + 1
    let maxVal := (2 ^ bits - 1) % 2 ^ 64
    parseUintLoop 10 cutoff maxVal s.data 0

/-- The base 10 loop of `fmt`'s integer formatting, writing right to left
into `buf`: `for u >= 10 { next := u / 10; buf[i] = '0' + u - next*10; u = next }`
followed by the last digit. -/
def fmtIntegerLoop : Nat → Nat → List Char → List Char
  | 0, u, buf => Char.ofNat ('0'.toNat + u) :: buf
  | fuel + 1, u, buf =>
    if u ≥ 10 then
      let next := u / 10
      fmtIntegerLoop fuel next (Char.ofNat ('0'.toNat + u - next * 10) :: buf)
    else Char.ofNat ('0'.toNat + u) :: buf

/-- Model of the verb `%d` of `fmt.Sprintf` on an unsigned integer. -/
def fmtInteger (u : Nat) : String :=
  String.mk (fmtIntegerLoop u u [])

/-! ## network.go -/

def LocalID : Nat := 1337
def MainnetID : Nat := 1
def TestnetID : Nat := 2
def UnitTestID : Nat := 369
def LuxMainnetID : Nat := 96369
def LuxTestnetID : Nat := 96368

def LocalName : String := "local"
def MainnetName : String := "mainnet"
def TestnetName : String := "testnet"
def UnitTestName : String := "testing"

def FallbackHRP : String := "custom"
def LocalHRP : String := "local"
def MainnetHRP : String := "lux"
def TestnetHRP : String := "test"
def UnitTestHRP : String := "testing"

/-- The map literal `NetworkIDToNetworkName`; the two Q-Chain identifiers are
declared outside `network.go`. -/
def NetworkIDToNetworkName (QChainMainnetID QChainTestnetID : Nat) : List (Nat × String) :=
  [ (LocalID, LocalName),
    (MainnetID, MainnetName),
    (TestnetID, TestnetName),
    (UnitTestID, UnitTestName),
    (LuxMainnetID, MainnetName),
    (LuxTestnetID, TestnetName),
    (QChainMainnetID, "qchain-mainnet"),
    (QChainTestnetID, "qchain-testnet") ]

/-- The map literal `NetworkNameToNetworkID`. -/
def NetworkNameToNetworkID : List (String × Nat) :=
  [ (LocalName, LocalID),
    (MainnetName, MainnetID),
    (TestnetName, TestnetID),
    (UnitTestName, UnitTestID) ]

/-- The map literal `NetworkIDToHRP`. -/
def NetworkIDToHRP (QChainMainnetID QChainTestnetID : Nat) : List (Nat × String) :=
  [ (LocalID, LocalHRP),
    (MainnetID, MainnetHRP),
    (TestnetID, TestnetHRP),
    (UnitTestID, UnitTestHRP),
    (LuxMainnetID, MainnetHRP),
    (LuxTestnetID, TestnetHRP),
    (QChainMainnetID, "qchain"),
    (QChainTestnetID, "qtest") ]

/-- The map literal `NetworkHRPToNetworkID`. -/
def NetworkHRPToNetworkID : List (String × Nat) :=
  [ (LocalHRP, LocalID),
    (MainnetHRP, MainnetID),
    (TestnetHRP, TestnetID),
    (UnitTestHRP, UnitTestID) ]

/-- The set `ProductionNetworkIDs`, `set.Of(...)` of four identifiers, as the
list of its members. -/
def ProductionNetworkIDs : List Nat :=
  [MainnetID, TestnetID, LuxMainnetID, LuxTestnetID]

def ValidNetworkPrefix : String := "network-"

/-- The function `NetworkName`. -/
def NetworkName (QChainMainnetID QChainTestnetID : Nat) (networkID : Nat) : String :=
  match mapGet (NetworkIDToNetworkName QChainMainnetID QChainTestnetID) networkID with
  | some name => name
  | none => ValidNetworkPrefix ++ fmtInteger networkID

/-- The function `NetworkID`. -/
def NetworkID (caseTable : Char → Char) (name : String) : Nat × Option GoError :=
  let name := ToLower caseTable name
  match mapGet NetworkNameToNetworkID name with
  | some id => (id, none)
  | none =>
    let parsed : Option Nat :=
      if HasPrefix name ValidNetworkPrefix then
        let idStr := TrimPrefix name ValidNetworkPrefix
        match ParseUint10 idStr 32 with
        | (id, none) => some (id % 2 ^ 32)
        | (_, some _) => none
      else none
    match parsed with
    | some id => (id, none)
    | none => (0, some GoError.ErrUnknownNetworkName)

/-- The function `GetHRP`. -/
def GetHRP (QChainMainnetID QChainTestnetID : Nat) (networkID : Nat) : String :=
  match mapGet (NetworkIDToHRP QChainMainnetID QChainTestnetID) networkID with
  | some hrp => hrp
  | none => FallbackHRP

/-! ## compression.go -/

/-- The UTF-8 encoding of one code point, as `utf8.EncodeRune` writes it. -/
def encodeRune (c : Char) : List Nat :=
  let r := c.toNat
  if r ≤ 0x7F then [r]
  else if r ≤ 0x7FF then [0xC0 + r / 64, 0x80 + r % 64]
  else if r ≤ 0xFFFF then [0xE0 + r / 4096, 0x80 + r / 64 % 64, 0x80 + r % 64]
  else [0xF0 + r / 262144, 0x80 + r / 4096 % 64, 0x80 + r / 64 % 64, 0x80 + r % 64]

/-- Model of the conversion `[]byte(s)`: the bytes of the string. -/
def stringBytes (s : String) : List Nat :=
  (s.data.map encodeRune).flatten

/-- The state of a `strings.Builder`: the text written so far. -/
structure Builder where
  buf : String

/-- Model of `(*strings.Builder).WriteString`: appends `s` to the buffer and
returns the length of `s` and a nil error. -/
def Builder.WriteString (b : Builder) (s : String) : Builder × Nat × Option GoError :=
  (Builder.mk (b.buf ++ s), (stringBytes s).length, none)

/-- Model of `(*strings.Builder).String`: the accumulated text. -/
def Builder.String (b : Builder) : String :=
  b.buf

/-- The type `CompressionType`, a `byte`. -/
abbrev CompressionType := Nat

/-- The constant `CompressionTypeNone`, `iota + 1` at `iota = 0`. -/
def CompressionTypeNone : CompressionType := 0 + 1

/-- The constant `CompressionTypeZstd`, `iota + 1` at `iota = 1`. -/
def CompressionTypeZstd : CompressionType := 1 + 1

/-- The method `CompressionType.String`. -/
def CompressionType.String (t : CompressionType) : String :=
  if t = CompressionTypeNone then "none"
  else if t = CompressionTypeZstd then "zstd"
  else "unknown"

/-- The function `CompressionTypeFromString`: the `switch` compares `s` with
the case expressions from top to bottom. -/
def CompressionTypeFromString (s : String) : CompressionType × Option GoError :=
  if s = CompressionType.String CompressionTypeNone then (CompressionTypeNone, none)
  else if s = CompressionType.String CompressionTypeZstd then (CompressionTypeZstd, none)
  else (CompressionTypeNone, some GoError.errUnknownCompressionType)

/-- The method `CompressionType.MarshalJSON`; a nil byte slice is the empty
list. -/
def CompressionType.MarshalJSON (t : CompressionType) : List Nat × Option GoError :=
  let b := Builder.mk ""
  match b.WriteString (String.singleton (Char.ofNat 34)) with
  | (_, _, some err) => ([], some err)
  | (b, _, none) =>
    match b.WriteString (CompressionType.String t) with
    | (_, _, some err) => ([], some err)
    | (b, _, none) =>
      match b.WriteString (String.singleton (Char.ofNat 34)) with
      | (_, _, some err) => ([], some err)
      | (b, _, none) => (stringBytes (Builder.String b), none)

/-! ## Specification side notions -/

/-- An ASCII decimal digit. -/
def isDigitChar (c : Char) : Prop :=
  '0'.toNat ≤ c.toNat ∧ c.toNat ≤ '9'.toNat

instance (c : Char) : Decidable (isDigitChar c) := by
  unfold isDigitChar; infer_instance

/-- The number a list of decimal digits denotes when it is read after the
digits already accumulated in `n`. -/
def decimalValueFrom (n : Nat) (cs : List Char) : Nat :=
  cs.foldl (fun acc c => 10 * acc + (c.toNat - '0'.toNat)) n

/-- The numeric value of a string of decimal digits (leading zeros allowed). -/
def decimalValue (d : String) : Nat :=
  decimalValueFrom 0 d.data

/-- A string that reads as an unsigned base 10 integer fitting in 32 bits:
non-empty, decimal digits only, value below `2 ^ 32`. -/
def isUint32Decimal (d : String) : Prop :=
  d.data ≠ [] ∧ (∀ c ∈ d.data, isDigitChar c) ∧ decimalValue d < 2 ^ 32

/-- A string without upper-case ASCII letters and without non-ASCII runes. -/
def isLowerASCII (s : String) : Prop :=
  ∀ c ∈ s.data, c.toNat < 0x80 ∧ ¬ ('A'.toNat ≤ c.toNat ∧ c.toNat ≤ 'Z'.toNat)

instance (s : String) : Decidable (isLowerASCII s) := by
  unfold isLowerASCII; infer_instance

/-- A sample of the non-ASCII case tables: the Kelvin sign `U+212A` lowers to
the ASCII letter `k`, every other rune to itself. -/
def kelvinCaseTable (c : Char) : Char :=
  if c.toNat = 0x212A then 'k' else c

/-! ## Map literals -/

theorem foldl_get_eq_none {κ ν : Type} [DecidableEq κ] (m : List (κ × ν)) (k : κ)
    (acc : Option ν) :
    m.foldl (fun found e => if e.1 = k then some e.2 else found) acc = none ↔
      acc = none ∧ k ∉ m.map Prod.fst := by
  induction m generalizing acc with
  | nil => simp
  | cons e m ih =>
    simp only [List.foldl_cons, List.map_cons, List.mem_cons, not_or]
    rw [ih]
    by_cases h : e.1 = k
    · simp [h]
    · have h2 : ¬ k = e.1 := fun h3 => h h3.symm
      simp [h, h2]

theorem mapGet_eq_none_iff {κ ν : Type} [DecidableEq κ] (m : List (κ × ν)) (k : κ) :
    mapGet m k = none ↔ k ∉ mapKeys m := by
  unfold mapGet mapKeys
  rw [foldl_get_eq_none]
  simp

theorem mapGet_isSome_iff {κ ν : Type} [DecidableEq κ] (m : List (κ × ν)) (k : κ) :
    (∃ v, mapGet m k = some v) ↔ k ∈ mapKeys m := by
  rw [← not_iff_not, ← mapGet_eq_none_iff]
  cases h : mapGet m k <;> simp

/-! ## strings.ToLower -/

theorem ToLower_of_isLowerASCII (caseTable : Char → Char) (s : String)
    (h : isLowerASCII s) : ToLower caseTable s = s := by
  unfold ToLower
  have h1 : s.data.all (fun c => decide (c.toNat < 0x80)) = true := by
    rw [List.all_eq_true]
    intro c hc
    simpa using (h c hc).1
  have h2 : s.data.any (fun c => decide ('A'.toNat ≤ c.toNat ∧ c.toNat ≤ 'Z'.toNat)) = false := by
    rw [List.any_eq_false]
    intro c hc
    simpa using (h c hc).2
  simp only [h1, h2]
  rfl

/-! ## Formatting an unsigned integer -/

theorem toNat_digit (d : Nat) (h : d < 10) : (Char.ofNat ('0'.toNat + d)).toNat = 48 + d := by
  interval_cases d <;> rfl

theorem isDigitChar_digit (d : Nat) (h : d < 10) : isDigitChar (Char.ofNat ('0'.toNat + d)) := by
  interval_cases d <;> decide

theorem decimalValueFrom_append (n : Nat) (xs : List Char) (c : Char) :
    decimalValueFrom n (xs ++ [c]) = 10 * decimalValueFrom n xs + (c.toNat - 48) := by
  simp [decimalValueFrom, List.foldl_append]

theorem fmtIntegerLoop_append (fuel u : Nat) (buf : List Char) :
    fmtIntegerLoop fuel u buf = fmtIntegerLoop fuel u [] ++ buf := by
  induction fuel generalizing u buf with
  | zero => simp [fmtIntegerLoop]
  | succ fuel ih =>
    unfold fmtIntegerLoop
    by_cases h : u ≥ 10
    · simp only [h, if_true]
      rw [ih (u / 10) (_ :: buf), ih (u / 10) [_]]
      simp
    · simp [h]

theorem fmtIntegerLoop_step (fuel u : Nat) (h : u ≥ 10) :
    fmtIntegerLoop (fuel + 1) u [] =
      fmtIntegerLoop fuel (u / 10) [] ++ [Char.ofNat ('0'.toNat + u % 10)] := by
  have e : '0'.toNat + u - u / 10 * 10 = '0'.toNat + u % 10 := by
    have := Nat.div_add_mod u 10
    omega
  conv_lhs => unfold fmtIntegerLoop
  simp only [h, if_true]
  rw [fmtIntegerLoop_append, e]

theorem fmtIntegerLoop_small (fuel u : Nat) (h : u < 10) :
    fmtIntegerLoop fuel u [] = [Char.ofNat ('0'.toNat + u)] := by
  cases fuel with
  | zero => rfl
  | succ fuel =>
    unfold fmtIntegerLoop
    have h2 : ¬ u ≥ 10 := by omega
    simp [h2]

/-- Enough fuel makes the formatting loop independent of the fuel. -/
theorem fmtIntegerLoop_fuel (fuel fuel2 u : Nat) (h : u ≤ fuel) (h2 : u ≤ fuel2) :
    fmtIntegerLoop fuel u [] = fmtIntegerLoop fuel2 u [] := by
  induction fuel generalizing u fuel2 with
  | zero =>
    rw [fmtIntegerLoop_small 0 u (by omega), fmtIntegerLoop_small fuel2 u (by omega)]
  | succ fuel ih =>
    by_cases hu : u ≥ 10
    · obtain ⟨f2, rfl⟩ : ∃ f2, fuel2 = f2 + 1 := ⟨fuel2 - 1, by omega⟩
      rw [fmtIntegerLoop_step fuel u hu, fmtIntegerLoop_step f2 u hu,
        ih f2 (u / 10) (by omega) (by omega)]
    · rw [fmtIntegerLoop_small _ u (by omega), fmtIntegerLoop_small fuel2 u (by omega)]

theorem fmtIntegerLoop_spec (fuel u : Nat) (h : u ≤ fuel) :
    (∀ c ∈ fmtIntegerLoop fuel u [], isDigitChar c) ∧
      decimalValueFrom 0 (fmtIntegerLoop fuel u []) = u ∧
      fmtIntegerLoop fuel u [] ≠ [] := by
  induction fuel generalizing u with
  | zero =>
    obtain rfl : u = 0 := by omega
    refine ⟨?_, ?_, ?_⟩ <;> decide
  | succ fuel ih =>
    by_cases hu : u ≥ 10
    · rw [fmtIntegerLoop_step fuel u hu]
      obtain ⟨h1, h2, _⟩ := ih (u / 10) (by omega)
      refine ⟨?_, ?_, by simp⟩
      · intro c hc
        rcases List.mem_append.1 hc with hc | hc
        · exact h1 c hc
        · rw [List.mem_singleton.1 hc]
          exact isDigitChar_digit _ (Nat.mod_lt _ (by decide))
      · rw [decimalValueFrom_append, h2, toNat_digit _ (Nat.mod_lt _ (by decide))]
        have := Nat.div_add_mod u 10
        omega
    · have hlt : u < 10 := by omega
      rw [fmtIntegerLoop_small _ u hlt]
      refine ⟨?_, ?_, by simp⟩
      · intro c hc
        rw [List.mem_singleton.1 hc]
        exact isDigitChar_digit _ hlt
      · simp only [decimalValueFrom, List.foldl_cons, List.foldl_nil]
        rw [toNat_digit _ hlt]
        show 10 * 0 + (48 + u - 48) = u
        omega

theorem digitChar_eq (d : Nat) (h : d < 10) : Nat.digitChar d = Char.ofNat ('0'.toNat + d) := by
  interval_cases d <;> rfl

theorem toDigitsCore_append (fuel n : Nat) (ds : List Char) :
    Nat.toDigitsCore 10 fuel n ds = Nat.toDigitsCore 10 fuel n [] ++ ds := by
  induction fuel generalizing n ds with
  | zero => simp [Nat.toDigitsCore]
  | succ fuel ih =>
    unfold Nat.toDigitsCore
    by_cases h : n / 10 = 0
    · simp [h]
    · simp only [h, if_false]
      rw [ih (n / 10) (_ :: ds), ih (n / 10) [_]]
      simp

/-- The formatting loop of `fmt` yields the standard decimal numeral. -/
theorem fmtIntegerLoop_eq_toDigits (fuel u : Nat) (h : u < fuel) :
    Nat.toDigitsCore 10 fuel u [] = fmtIntegerLoop u u [] := by
  induction fuel generalizing u with
  | zero => omega
  | succ fuel ih =>
    unfold Nat.toDigitsCore
    by_cases hu : u ≥ 10
    · have h0 : ¬ u / 10 = 0 := by omega
      simp only [h0, if_false]
      rw [toDigitsCore_append, ih (u / 10) (by omega),
        digitChar_eq _ (Nat.mod_lt _ (by decide))]
      rw [fmtIntegerLoop_fuel u (u - 1 + 1) u (le_refl _) (by omega),
        fmtIntegerLoop_step (u - 1) u hu,
        fmtIntegerLoop_fuel (u / 10) (u - 1) (u / 10) (le_refl _) (by omega)]
    · have h0 : u / 10 = 0 := by omega
      have hlt : u < 10 := by omega
      simp only [h0, if_true]
      rw [fmtIntegerLoop_small _ u hlt, Nat.mod_eq_of_lt hlt, digitChar_eq _ hlt]

theorem fmtInteger_eq_repr (u : Nat) : fmtInteger u = Nat.repr u := by
  unfold fmtInteger Nat.repr Nat.toDigits
  rw [fmtIntegerLoop_eq_toDigits (u + 1) u (by omega)]
  rfl

theorem fmtInteger_spec (u : Nat) :
    (∀ c ∈ (fmtInteger u).data, isDigitChar c) ∧ decimalValue (fmtInteger u) = u ∧
      (fmtInteger u).data ≠ [] :=
  fmtIntegerLoop_spec u u (le_refl _)

/-! ## strconv.ParseUint -/

theorem parseUintLoop_nondigit (cutoff maxVal : Nat) (c : Char) (cs : List Char) (n : Nat)
    (hc : ¬ isDigitChar c) :
    parseUintLoop 10 cutoff maxVal (c :: cs) n = (0, some NumError.ErrSyntax) := by
  unfold isDigitChar at hc
  unfold parseUintLoop
  simp only [hc, if_false]
  generalize c.toNat ||| ('x'.toNat - 'X'.toNat) = l
  by_cases hl : 'a'.toNat ≤ l ∧ l ≤ 'z'.toNat
  · have h1 : 'a'.toNat = 97 := rfl
    have h2 : 'z'.toNat = 122 := rfl
    rw [h1, h2] at hl
    have hd : (l - 'a'.toNat + 10) % 256 ≥ 10 % 256 := by
      rw [h1]
      omega
    simp only [h1, h2, hl, and_self, if_true]
    rw [h1] at hd
    simp only [hd, if_true]
  · simp only [hl, if_false]

theorem parseUintLoop_digit (c : Char) (cs : List Char) (n : Nat)
    (hc : isDigitChar c) (hn : n < 2 ^ 32) :
    parseUintLoop 10 1844674407370955162 4294967295 (c :: cs) n =
      if 10 * n + (c.toNat - '0'.toNat) > 4294967295 then
        (4294967295, some NumError.ErrRange)
      else parseUintLoop 10 1844674407370955162 4294967295 cs (10 * n + (c.toNat - '0'.toNat)) := by
  have hc2 := hc
  unfold isDigitChar at hc2
  have h0 : '0'.toNat = 48 := rfl
  have h9 : '9'.toNat = 57 := rfl
  conv_lhs => unfold parseUintLoop
  simp only [hc2, and_self, if_true]
  rw [h0, h9] at hc2
  rw [h0]
  have hd : ¬ (c.toNat - 48 ≥ 10 % 256) := by omega
  have hcut : ¬ (n ≥ 1844674407370955162) := by
    have : (2 : Nat) ^ 32 = 4294967296 := by norm_num
    omega
  have e0 : n * 10 % 2 ^ 64 = 10 * n := by
    have : (2 : Nat) ^ 32 = 4294967296 := by norm_num
    have : (2 : Nat) ^ 64 = 18446744073709551616 := by norm_num
    omega
  have e1 : (10 * n + (c.toNat - 48)) % 2 ^ 64 = 10 * n + (c.toNat - 48) := by
    have : (2 : Nat) ^ 32 = 4294967296 := by norm_num
    have : (2 : Nat) ^ 64 = 18446744073709551616 := by norm_num
    omega
  simp only [hd, hcut, if_false, e0, e1]
  have hlt : ¬ (10 * n + (c.toNat - 48) < 10 * n) := by omega
  simp only [hlt, false_or]

theorem decimalValueFrom_cons (n : Nat) (c : Char) (cs : List Char) :
    decimalValueFrom n (c :: cs) = decimalValueFrom (10 * n + (c.toNat - '0'.toNat)) cs := rfl

theorem le_decimalValueFrom (n : Nat) (cs : List Char) : n ≤ decimalValueFrom n cs := by
  induction cs generalizing n with
  | nil => exact le_refl _
  | cons c cs ih =>
    rw [decimalValueFrom_cons]
    have := ih (10 * n + (c.toNat - '0'.toNat))
    omega

/-- On decimal digits whose value fits 32 bits the digit loop returns that value. -/
theorem parseUintLoop_ok (cs : List Char) (n : Nat) (hd : ∀ c ∈ cs, isDigitChar c)
    (hv : decimalValueFrom n cs < 2 ^ 32) :
    parseUintLoop 10 1844674407370955162 4294967295 cs n = (decimalValueFrom n cs, none) := by
  induction cs generalizing n with
  | nil => rfl
  | cons c cs ih =>
    have hn : n < 2 ^ 32 := lt_of_le_of_lt (le_decimalValueFrom n _) hv
    rw [decimalValueFrom_cons] at hv ⊢
    have hstep := le_decimalValueFrom (10 * n + (c.toNat - '0'.toNat)) cs
    have hfit : ¬ (10 * n + (c.toNat - '0'.toNat) > 4294967295) := by
      have : (2 : Nat) ^ 32 = 4294967296 := by norm_num
      omega
    rw [parseUintLoop_digit c cs n (hd c (List.mem_cons_self _ _)) hn]
    simp only [hfit, if_false]
    exact ih _ (fun c hc => hd c (List.mem_cons_of_mem _ hc)) hv

/-- The digit loop only succeeds on decimal digits whose value fits 32 bits. -/
theorem parseUintLoop_none (cs : List Char) (n : Nat) (hn : n < 2 ^ 32)
    (h : (parseUintLoop 10 1844674407370955162 4294967295 cs n).2 = none) :
    (∀ c ∈ cs, isDigitChar c) ∧ decimalValueFrom n cs < 2 ^ 32 := by
  induction cs generalizing n with
  | nil => exact ⟨by simp, hn⟩
  | cons c cs ih =>
    by_cases hc : isDigitChar c
    · rw [parseUintLoop_digit c cs n hc hn] at h
      by_cases hfit : 10 * n + (c.toNat - '0'.toNat) > 4294967295
      · rw [if_pos hfit] at h
        simp at h
      · rw [if_neg hfit] at h
        have hn2 : 10 * n + (c.toNat - '0'.toNat) < 2 ^ 32 := by
          have : (2 : Nat) ^ 32 = 4294967296 := by norm_num
          omega
        obtain ⟨h1, h2⟩ := ih _ hn2 h
        refine ⟨?_, by rw [decimalValueFrom_cons]; exact h2⟩
        intro x hx
        rcases List.mem_cons.1 hx with rfl | hx
        · exact hc
        · exact h1 x hx
    · rw [parseUintLoop_nondigit _ _ c cs n hc] at h
      simp at h

theorem ParseUint10_32 (s : String) :
    ParseUint10 s 32 =
      if s.data = [] then (0, some NumError.ErrSyntax)
      else parseUintLoop 10 1844674407370955162 4294967295 s.data 0 := by
  unfold ParseUint10
  norm_num

/-- The call `strconv.ParseUint(s, 10, 32)` succeeds exactly on the strings
that read as a 32 bit unsigned decimal, and then returns their value. -/
theorem ParseUint10_ok_iff (s : String) :
    (ParseUint10 s 32).2 = none ↔ isUint32Decimal s := by
  rw [ParseUint10_32]
  unfold isUint32Decimal decimalValue
  by_cases he : s.data = []
  · simp [he]
  · simp only [he, if_false, ne_eq, not_false_eq_true, true_and]
    constructor
    · intro h
      exact parseUintLoop_none _ 0 (by norm_num) h
    · rintro ⟨h1, h2⟩
      rw [parseUintLoop_ok _ 0 h1 h2]

theorem ParseUint10_value (s : String) (h : isUint32Decimal s) :
    ParseUint10 s 32 = (decimalValue s, none) := by
  rw [ParseUint10_32]
  obtain ⟨he, h1, h2⟩ := h
  simp only [he, if_false]
  exact parseUintLoop_ok _ 0 h1 h2

/-! ## Idempotence of strings.ToLower -/

theorem toNat_ofNat_of_lt (n : Nat) (h : n < 0xD800) : (Char.ofNat n).toNat = n := by
  unfold Char.ofNat
  rw [dif_pos (Or.inl h)]
  rfl

theorem unicodeToLower_upper (caseTable : Char → Char) (c : Char)
    (h : 'A'.toNat ≤ c.toNat ∧ c.toNat ≤ 'Z'.toNat) :
    (unicodeToLower caseTable c).toNat = c.toNat + 32 := by
  have hA : 'A'.toNat = 65 := rfl
  have hZ : 'Z'.toNat = 90 := rfl
  have ha : 'a'.toNat = 97 := rfl
  unfold unicodeToLower
  rw [hA, hZ] at h
  have h1 : c.toNat ≤ 0x7F := by omega
  simp only [h1, if_true, hA, hZ, ha, h, and_self]
  rw [toNat_ofNat_of_lt _ (by omega)]

theorem unicodeToLower_lowerASCII (caseTable : Char → Char) (c : Char)
    (h : c.toNat < 0x80 ∧ ¬ ('A'.toNat ≤ c.toNat ∧ c.toNat ≤ 'Z'.toNat)) :
    unicodeToLower caseTable c = c := by
  unfold unicodeToLower
  have h1 : c.toNat ≤ 0x7F := by omega
  simp only [h1, if_true, h.2, if_false]

theorem asciiLowerByte_lowerASCII (c : Char) (h : c.toNat < 0x80) :
    (asciiLowerByte c).toNat < 0x80 ∧
      ¬ ('A'.toNat ≤ (asciiLowerByte c).toNat ∧ (asciiLowerByte c).toNat ≤ 'Z'.toNat) := by
  have hA : 'A'.toNat = 65 := rfl
  have hZ : 'Z'.toNat = 90 := rfl
  have ha : 'a'.toNat = 97 := rfl
  unfold asciiLowerByte
  by_cases hu : 'A'.toNat ≤ c.toNat ∧ c.toNat ≤ 'Z'.toNat
  · simp only [hu, and_self, if_true]
    rw [hA, hZ] at hu
    rw [hA, hZ, ha, toNat_ofNat_of_lt _ (by omega)]
    omega
  · rw [if_neg hu]
    exact ⟨h, hu⟩

/-- The ASCII fast path of `strings.ToLower` agrees with `unicode.ToLower` on
every ASCII rune. -/
theorem asciiLowerByte_eq_unicodeToLower (caseTable : Char → Char) (c : Char)
    (h : c.toNat < 0x80) : asciiLowerByte c = unicodeToLower caseTable c := by
  have hA : 'A'.toNat = 65 := rfl
  have hZ : 'Z'.toNat = 90 := rfl
  have ha : 'a'.toNat = 97 := rfl
  unfold asciiLowerByte unicodeToLower
  have h1 : c.toNat ≤ 0x7F := by omega
  simp only [h1, if_true]
  by_cases hu : 'A'.toNat ≤ c.toNat ∧ c.toNat ≤ 'Z'.toNat
  · simp only [hu, and_self, if_true]
    rw [hA, hZ] at hu
    rw [ha, hA, Nat.mod_eq_of_lt (by omega)]
  · simp only [hu, if_false]

/-- A string all of whose runes are fixed by `unicode.ToLower` is returned
unchanged by `strings.ToLower`. -/
theorem ToLower_of_fixed (caseTable : Char → Char) (s : String)
    (h : ∀ c ∈ s.data, unicodeToLower caseTable c = c) : ToLower caseTable s = s := by
  unfold ToLower
  have h2 : s.data.any (fun c => decide ('A'.toNat ≤ c.toNat ∧ c.toNat ≤ 'Z'.toNat)) = false := by
    rw [List.any_eq_false]
    intro c hc hu
    have hu2 := of_decide_eq_true hu
    have h3 := unicodeToLower_upper caseTable c hu2
    rw [h c hc] at h3
    omega
  have h4 : s.data.map (unicodeToLower caseTable) = s.data := by
    conv_rhs => rw [← List.map_id s.data]
    exact List.map_congr_left h
  simp only [h2, h4]
  simp

/-- With case tables whose lower-case forms are themselves in lower case,
`unicode.ToLower` is idempotent. -/
theorem unicodeToLower_idem (caseTable : Char → Char)
    (h : ∀ c : Char, 0x7F < c.toNat → unicodeToLower caseTable (caseTable c) = caseTable c)
    (c : Char) :
    unicodeToLower caseTable (unicodeToLower caseTable c) = unicodeToLower caseTable c := by
  by_cases h1 : c.toNat ≤ 0x7F
  · rw [← asciiLowerByte_eq_unicodeToLower caseTable c (by omega)]
    exact unicodeToLower_lowerASCII _ _ (asciiLowerByte_lowerASCII c (by omega))
  · have e : unicodeToLower caseTable c = caseTable c := by
      unfold unicodeToLower
      simp only [h1, if_false]
    rw [e]
    exact h c (by omega)

/-- Every rune of a lowered string is fixed by `unicode.ToLower`. -/
theorem ToLower_fixed (caseTable : Char → Char)
    (h : ∀ c : Char, 0x7F < c.toNat → unicodeToLower caseTable (caseTable c) = caseTable c)
    (s : String) : ∀ c ∈ (ToLower caseTable s).data, unicodeToLower caseTable c = c := by
  unfold ToLower
  by_cases h1 : s.data.all (fun c => decide (c.toNat < 0x80)) = true
  · simp only [h1, if_true]
    rw [List.all_eq_true] at h1
    by_cases h2 : s.data.any (fun c => decide ('A'.toNat ≤ c.toNat ∧ c.toNat ≤ 'Z'.toNat)) = true
    · simp only [h2, Bool.not_true, Bool.false_eq_true, if_false]
      intro c hc
      obtain ⟨x, hx, rfl⟩ := List.mem_map.1 hc
      exact unicodeToLower_lowerASCII _ _
        (asciiLowerByte_lowerASCII x (of_decide_eq_true (h1 x hx)))
    · have h3 : s.data.any (fun c => decide ('A'.toNat ≤ c.toNat ∧ c.toNat ≤ 'Z'.toNat)) = false := by
        simpa using h2
      simp only [h3, Bool.not_false, if_true]
      rw [List.any_eq_false] at h3
      intro c hc
      exact unicodeToLower_lowerASCII _ _
        ⟨of_decide_eq_true (h1 c hc), fun hu => h3 c hc (decide_eq_true hu)⟩
  · simp only [h1, Bool.false_eq_true, if_false]
    intro c hc
    obtain ⟨x, _, rfl⟩ := List.mem_map.1 hc
    exact unicodeToLower_idem caseTable h x

theorem ToLower_idem (caseTable : Char → Char)
    (h : ∀ c : Char, 0x7F < c.toNat → unicodeToLower caseTable (caseTable c) = caseTable c)
    (s : String) : ToLower caseTable (ToLower caseTable s) = ToLower caseTable s :=
  ToLower_of_fixed _ _ (ToLower_fixed caseTable h s)

/-! ## strings.HasPrefix and strings.TrimPrefix -/

theorem HasPrefix_iff (s pre : String) : HasPrefix s pre = true ↔ ∃ d : String, s = pre ++ d := by
  unfold HasPrefix
  simp only [Bool.and_eq_true, decide_eq_true_eq]
  constructor
  · rintro ⟨_, h2⟩
    refine ⟨String.mk (s.data.drop pre.data.length), ?_⟩
    apply String.ext
    rw [String.data_append]
    conv_lhs => rw [← List.take_append_drop pre.data.length s.data]
    rw [h2]
  · rintro ⟨d, rfl⟩
    rw [String.data_append]
    simp

theorem HasPrefix_append (pre d : String) : HasPrefix (pre ++ d) pre = true :=
  (HasPrefix_iff _ _).2 ⟨d, rfl⟩

theorem TrimPrefix_append (pre d : String) : TrimPrefix (pre ++ d) pre = d := by
  unfold TrimPrefix
  rw [HasPrefix_append]
  simp only [if_true]
  apply String.ext
  rw [String.data_append]
  simp

/-! ## The resolver `NetworkID` by cases on the lowered name -/

theorem mapKeys_NetworkNameToNetworkID :
    mapKeys NetworkNameToNetworkID = ["local", "mainnet", "testnet", "testing"] := rfl

theorem mapGet_name_fallback (d : String) :
    mapGet NetworkNameToNetworkID (ValidNetworkPrefix ++ d) = none := by
  rw [mapGet_eq_none_iff, mapKeys_NetworkNameToNetworkID]
  have hp : (ValidNetworkPrefix ++ d).data = 'n' :: ("etwork-".data ++ d.data) := by
    rw [String.data_append]
    rfl
  intro h
  simp only [List.mem_cons, List.mem_singleton, List.not_mem_nil, or_false] at h
  rcases h with h | h | h | h <;>
    · have h2 := congrArg String.data h
      rw [hp] at h2
      exact absurd (List.head_eq_of_cons_eq h2) (by decide)

theorem NetworkID_curated (caseTable : Char → Char) (name : String) (id : Nat)
    (h : mapGet NetworkNameToNetworkID (ToLower caseTable name) = some id) :
    NetworkID caseTable name = (id, none) := by
  unfold NetworkID
  simp only [h]

theorem NetworkID_fallback (caseTable : Char → Char) (name d : String)
    (h : ToLower caseTable name = ValidNetworkPrefix ++ d) (hd : isUint32Decimal d) :
    NetworkID caseTable name = (decimalValue d, none) := by
  unfold NetworkID
  simp only [h, mapGet_name_fallback, HasPrefix_append, TrimPrefix_append, if_true,
    ParseUint10_value d hd]
  rw [Nat.mod_eq_of_lt hd.2.2]

theorem NetworkID_unknown (caseTable : Char → Char) (name : String)
    (h1 : mapGet NetworkNameToNetworkID (ToLower caseTable name) = none)
    (h2 : ¬ ∃ d, ToLower caseTable name = ValidNetworkPrefix ++ d ∧ isUint32Decimal d) :
    NetworkID caseTable name = (0, some GoError.ErrUnknownNetworkName) := by
  unfold NetworkID
  simp only [h1]
  by_cases hp : HasPrefix (ToLower caseTable name) ValidNetworkPrefix = true
  · obtain ⟨d, hd⟩ := (HasPrefix_iff _ _).1 hp
    have hnd : ¬ isUint32Decimal d := fun hd2 => h2 ⟨d, hd, hd2⟩
    rw [← ParseUint10_ok_iff] at hnd
    simp only [hd, HasPrefix_append, TrimPrefix_append, if_true]
    cases hr : ParseUint10 d 32 with
    | mk v e =>
      cases e with
      | none => rw [hr] at hnd; exact absurd rfl hnd
      | some e => rfl
  · simp only [hp]
    rfl

/-- The error component of `NetworkID` is either nil or `ErrUnknownNetworkName`
with identifier 0. -/
theorem NetworkID_cases (caseTable : Char → Char) (name : String) :
    (NetworkID caseTable name).2 = none ∨
      NetworkID caseTable name = (0, some GoError.ErrUnknownNetworkName) := by
  cases h1 : mapGet NetworkNameToNetworkID (ToLower caseTable name) with
  | some id => left; rw [NetworkID_curated _ _ _ h1]
  | none =>
    by_cases h2 : ∃ d, ToLower caseTable name = ValidNetworkPrefix ++ d ∧ isUint32Decimal d
    · obtain ⟨d, hd, hd2⟩ := h2
      left
      rw [NetworkID_fallback _ _ _ hd hd2]
    · right
      exact NetworkID_unknown _ _ h1 h2

theorem NetworkID_congr (caseTable caseTable2 : Char → Char) (a b : String)
    (h : ToLower caseTable a = ToLower caseTable2 b) :
    NetworkID caseTable a = NetworkID caseTable2 b := by
  unfold NetworkID
  simp only [h]

/-! ## The tables -/

theorem mapGet_NetworkIDToNetworkName (q1 q2 id : Nat) :
    mapGet (NetworkIDToNetworkName q1 q2) id =
      if q2 = id then some "qchain-testnet"
      else if q1 = id then some "qchain-mainnet"
      else if LuxTestnetID = id then some TestnetName
      else if LuxMainnetID = id then some MainnetName
      else if UnitTestID = id then some UnitTestName
      else if TestnetID = id then some TestnetName
      else if MainnetID = id then some MainnetName
      else if LocalID = id then some LocalName
      else none := rfl

theorem mapGet_NetworkIDToHRP (q1 q2 id : Nat) :
    mapGet (NetworkIDToHRP q1 q2) id =
      if q2 = id then some "qtest"
      else if q1 = id then some "qchain"
      else if LuxTestnetID = id then some TestnetHRP
      else if LuxMainnetID = id then some MainnetHRP
      else if UnitTestID = id then some UnitTestHRP
      else if TestnetID = id then some TestnetHRP
      else if MainnetID = id then some MainnetHRP
      else if LocalID = id then some LocalHRP
      else none := rfl

theorem mapKeys_NetworkIDToNetworkName (q1 q2 : Nat) :
    mapKeys (NetworkIDToNetworkName q1 q2) =
      [LocalID, MainnetID, TestnetID, UnitTestID, LuxMainnetID, LuxTestnetID, q1, q2] := rfl

theorem mapKeys_NetworkIDToHRP (q1 q2 : Nat) :
    mapKeys (NetworkIDToHRP q1 q2) =
      [LocalID, MainnetID, TestnetID, UnitTestID, LuxMainnetID, LuxTestnetID, q1, q2] := rfl

/-- Every name stored in `NetworkIDToNetworkName` is lower-case ASCII and does
not begin with `ValidNetworkPrefix`. -/
theorem curated_name_shape (q1 q2 id : Nat) (name : String)
    (h : mapGet (NetworkIDToNetworkName q1 q2) id = some name) :
    isLowerASCII name ∧ HasPrefix name ValidNetworkPrefix = false := by
  rw [mapGet_NetworkIDToNetworkName] at h
  split_ifs at h <;>
    · cases h
      exact ⟨by decide, by decide⟩

theorem isLowerASCII_fallback (d : String) (hd : ∀ c ∈ d.data, isDigitChar c) :
    isLowerASCII (ValidNetworkPrefix ++ d) := by
  intro c hc
  rw [String.data_append] at hc
  rcases List.mem_append.1 hc with hc | hc
  · have hall : isLowerASCII ValidNetworkPrefix := by decide
    exact hall c hc
  · have h := hd c hc
    unfold isDigitChar at h
    have h0 : '0'.toNat = 48 := rfl
    have h9 : '9'.toNat = 57 := rfl
    have hA : 'A'.toNat = 65 := rfl
    rw [h0, h9] at h
    rw [hA]
    omega

theorem ToLower_ascii (caseTable caseTable2 : Char → Char) (s : String)
    (h : s.data.all (fun c => decide (c.toNat < 0x80)) = true) :
    ToLower caseTable s = ToLower caseTable2 s := by
  unfold ToLower
  simp only [h, if_true]

/-- On an ASCII-only name the resolver does not consult the case tables. -/
theorem NetworkID_ascii (caseTable caseTable2 : Char → Char) (s : String)
    (h : s.data.all (fun c => decide (c.toNat < 0x80)) = true) :
    NetworkID caseTable s = NetworkID caseTable2 s :=
  NetworkID_congr _ _ _ _ (ToLower_ascii _ _ s h)

theorem NetworkName_LuxMainnetID (q1 q2 : Nat) :
    NetworkName q1 q2 LuxMainnetID = "mainnet" ∨
      NetworkName q1 q2 LuxMainnetID = "qchain-mainnet" ∨
      NetworkName q1 q2 LuxMainnetID = "qchain-testnet" := by
  unfold NetworkName
  rw [mapGet_NetworkIDToNetworkName]
  by_cases h2 : q2 = LuxMainnetID
  · right; right; simp [h2]
  · by_cases h1 : q1 = LuxMainnetID
    · right; left; simp [h1, h2]
    · left
      simp only [h1, h2, if_false]
      rfl

theorem kelvinCaseTable_stable (c : Char) (_h : 0x7F < c.toNat) :
    unicodeToLower kelvinCaseTable (kelvinCaseTable c) = kelvinCaseTable c := by
  by_cases hk : c.toNat = 0x212A
  · have e : kelvinCaseTable c = 'k' := by
      unfold kelvinCaseTable
      rw [if_pos hk]
    rw [e]
    decide
  · have e : kelvinCaseTable c = c := by
      unfold kelvinCaseTable
      rw [if_neg hk]
    rw [e]
    unfold unicodeToLower
    rw [if_neg (by omega)]
    exact e

/-- Every address prefix stored in `NetworkIDToHRP` differs from `FallbackHRP`. -/
theorem registered_HRP_ne_fallback (q1 q2 id : Nat) (hrp : String)
    (h : mapGet (NetworkIDToHRP q1 q2) id = some hrp) : hrp ≠ FallbackHRP := by
  rw [mapGet_NetworkIDToHRP] at h
  split_ifs at h <;>
    · cases h
      decide

/-! ## Claims -/

/-- C1, as stated, fails: `LuxMainnetID` is a key of `NetworkIDToNetworkName`
whatever the Q-Chain identifiers are, yet for no value of the Q-Chain
identifiers and no case tables does `NetworkID(NetworkName(LuxMainnetID))`
return `(LuxMainnetID, nil)`. -/
theorem roundtrip_LuxMainnetID_fails :
    (∀ q1 q2 : Nat, LuxMainnetID ∈ mapKeys (NetworkIDToNetworkName q1 q2)) ∧
      ¬ ∃ (caseTable : Char → Char) (q1 q2 : Nat),
        NetworkID caseTable (NetworkName q1 q2 LuxMainnetID) = (LuxMainnetID, none) := by
  refine ⟨fun q1 q2 => by rw [mapKeys_NetworkIDToNetworkName]; simp, ?_⟩
  rintro ⟨caseTable, q1, q2, h⟩
  rcases NetworkName_LuxMainnetID q1 q2 with e | e | e <;>
    · rw [e, NetworkID_ascii caseTable (fun c => c) _ (by decide)] at h
      revert h
      decide

/-- C1, amended: when the keys of the literal `NetworkIDToNetworkName` are
pairwise distinct, `NetworkID(NetworkName(id))` returns `(id, nil)` for `id`
among `LocalID`, `MainnetID`, `TestnetID`, `UnitTestID`, and returns
`(MainnetID, nil)` for `LuxMainnetID` and `(TestnetID, nil)` for
`LuxTestnetID`, whose names are shared with those two identifiers. -/
theorem roundtrip_curated (caseTable : Char → Char) (q1 q2 id : Nat)
    (hk : (mapKeys (NetworkIDToNetworkName q1 q2)).Nodup) :
    (id ∈ [LocalID, MainnetID, TestnetID, UnitTestID] →
        NetworkID caseTable (NetworkName q1 q2 id) = (id, none)) ∧
      NetworkID caseTable (NetworkName q1 q2 LuxMainnetID) = (MainnetID, none) ∧
      NetworkID caseTable (NetworkName q1 q2 LuxTestnetID) = (TestnetID, none) := by
  rw [mapKeys_NetworkIDToNetworkName] at hk
  simp only [List.nodup_cons, List.mem_cons, List.mem_singleton, not_or, List.not_mem_nil,
    not_false_eq_true, List.nodup_nil, and_true] at hk
  obtain ⟨⟨-, -, -, -, -, a1, a2⟩, ⟨-, -, -, -, b1, b2⟩, ⟨-, -, -, c1, c2⟩, ⟨-, -, d1, d2⟩,
    ⟨-, e1, e2⟩, ⟨f1, f2⟩, -⟩ := hk
  have key : ∀ (i : Nat) (name : String), i ≠ q1 → i ≠ q2 →
      mapGet (NetworkIDToNetworkName 0 0) i = some name → i ≠ 0 →
      NetworkName q1 q2 i = name := by
    intro i name h1 h2 h3 _
    unfold NetworkName
    rw [mapGet_NetworkIDToNetworkName] at h3 ⊢
    rw [if_neg (Ne.symm h2), if_neg (Ne.symm h1)]
    split_ifs at h3 ⊢ <;> simp_all
  have res : ∀ name : String, isLowerASCII name →
      NetworkID caseTable name = NetworkID (fun c => c) name := by
    intro name hn
    exact NetworkID_congr _ _ _ _
      ((ToLower_of_isLowerASCII _ _ hn).trans (ToLower_of_isLowerASCII _ _ hn).symm)
  refine ⟨?_, ?_, ?_⟩
  · intro hid
    simp only [List.mem_cons, List.mem_singleton, List.not_mem_nil, or_false] at hid
    rcases hid with rfl | rfl | rfl | rfl
    · rw [key LocalID LocalName a1 a2 (by decide) (by decide), res _ (by decide)]; decide
    · rw [key MainnetID MainnetName b1 b2 (by decide) (by decide), res _ (by decide)]; decide
    · rw [key TestnetID TestnetName c1 c2 (by decide) (by decide), res _ (by decide)]; decide
    · rw [key UnitTestID UnitTestName d1 d2 (by decide) (by decide), res _ (by decide)]; decide
  · rw [key LuxMainnetID MainnetName e1 e2 (by decide) (by decide), res _ (by decide)]; decide
  · rw [key LuxTestnetID TestnetName f1 f2 (by decide) (by decide), res _ (by decide)]; decide

/-- Witness of `roundtrip_curated` at the sample Q-Chain identifiers 36963 and
36962 and the identifier `UnitTestID`. -/
theorem roundtrip_curated_witness :
    (mapKeys (NetworkIDToNetworkName 36963 36962)).Nodup ∧
      ((UnitTestID ∈ [LocalID, MainnetID, TestnetID, UnitTestID] →
          NetworkID kelvinCaseTable (NetworkName 36963 36962 UnitTestID) = (UnitTestID, none)) ∧
        NetworkID kelvinCaseTable (NetworkName 36963 36962 LuxMainnetID) = (MainnetID, none) ∧
        NetworkID kelvinCaseTable (NetworkName 36963 36962 LuxTestnetID) = (TestnetID, none)) :=
  ⟨by decide, roundtrip_curated kelvinCaseTable 36963 36962 UnitTestID (by decide)⟩

/-- C2: for every `uint32` identifier that is not a key of
`NetworkIDToNetworkName`, `NetworkName` is the synthesized name `network-`
followed by the decimal numeral of the identifier, and `NetworkID` resolves
that name back to the same identifier with a nil error. -/
theorem roundtrip_fallback (caseTable : Char → Char) (q1 q2 id : Nat) (hid : id < 2 ^ 32)
    (hkey : id ∉ mapKeys (NetworkIDToNetworkName q1 q2)) :
    NetworkName q1 q2 id = ValidNetworkPrefix ++ Nat.repr id ∧
      NetworkID caseTable (NetworkName q1 q2 id) = (id, none) := by
  have hname : NetworkName q1 q2 id = ValidNetworkPrefix ++ fmtInteger id := by
    unfold NetworkName
    rw [(mapGet_eq_none_iff _ _).2 hkey]
  obtain ⟨hd, hv, hne⟩ := fmtInteger_spec id
  refine ⟨by rw [hname, fmtInteger_eq_repr], ?_⟩
  rw [hname]
  have h := NetworkID_fallback caseTable (ValidNetworkPrefix ++ fmtInteger id) (fmtInteger id)
    (ToLower_of_isLowerASCII _ _ (isLowerASCII_fallback _ hd)) ⟨hne, hd, by rw [hv]; exact hid⟩
  rw [hv] at h
  exact h

/-- Witness of `roundtrip_fallback` at identifier 999999 with sample Q-Chain
identifiers 36963 and 36962. -/
theorem roundtrip_fallback_witness :
    999999 < 2 ^ 32 ∧ 999999 ∉ mapKeys (NetworkIDToNetworkName 36963 36962) ∧
      NetworkName 36963 36962 999999 = ValidNetworkPrefix ++ Nat.repr 999999 ∧
      NetworkID kelvinCaseTable (NetworkName 36963 36962 999999) = (999999, none) :=
  ⟨by norm_num, by decide,
    roundtrip_fallback kelvinCaseTable 36963 36962 999999 (by norm_num) (by decide)⟩

/-- C3: for every identifier, `NetworkName` returns the entry of
`NetworkIDToNetworkName` when the identifier is a key of that table, and
otherwise `ValidNetworkPrefix` followed by the decimal numeral of the
identifier; `NetworkName(999999)` is `network-999999` whenever 999999 is not
one of the keys. -/
theorem NetworkName_spec (q1 q2 id : Nat) :
    (id ∈ mapKeys (NetworkIDToNetworkName q1 q2) →
        mapGet (NetworkIDToNetworkName q1 q2) id = some (NetworkName q1 q2 id)) ∧
      (id ∉ mapKeys (NetworkIDToNetworkName q1 q2) →
        NetworkName q1 q2 id = ValidNetworkPrefix ++ Nat.repr id) ∧
      (999999 ∉ mapKeys (NetworkIDToNetworkName q1 q2) →
        NetworkName q1 q2 999999 = "network-999999") := by
  have hfall : ∀ i : Nat, i ∉ mapKeys (NetworkIDToNetworkName q1 q2) →
      NetworkName q1 q2 i = ValidNetworkPrefix ++ Nat.repr i := by
    intro i hi
    unfold NetworkName
    rw [(mapGet_eq_none_iff _ _).2 hi, fmtInteger_eq_repr]
  refine ⟨?_, hfall id, ?_⟩
  · intro hkey
    obtain ⟨v, hv⟩ := (mapGet_isSome_iff _ _).2 hkey
    unfold NetworkName
    rw [hv]
  · intro h
    rw [hfall _ h]
    decide

/-- Witness of `NetworkName_spec` at the sample Q-Chain identifiers 36963 and
36962: a curated identifier and the fallback example. -/
theorem NetworkName_spec_witness :
    NetworkName 36963 36962 LocalID = "local" ∧
      NetworkName 36963 36962 42 = "network-42" ∧
      NetworkName 36963 36962 999999 = "network-999999" :=
  ⟨Option.some.inj ((NetworkName_spec 36963 36962 LocalID).1 (by decide)).symm,
    (NetworkName_spec 36963 36962 42).2.1 (by decide),
    (NetworkName_spec 36963 36962 999999).2.2 (by decide)⟩

/-- C4: for every non-empty string `d` of ASCII decimal digits whose value is
below `2 ^ 32`, leading zeros or not and curated value or not,
`NetworkID("network-" + d)` returns that value with a nil error. -/
theorem NetworkID_fallback_digits (caseTable : Char → Char) (d : String)
    (hne : d.data ≠ []) (hd : ∀ c ∈ d.data, isDigitChar c) (hv : decimalValue d < 2 ^ 32) :
    NetworkID caseTable (ValidNetworkPrefix ++ d) = (decimalValue d, none) :=
  NetworkID_fallback caseTable (ValidNetworkPrefix ++ d) d
    (ToLower_of_isLowerASCII _ _ (isLowerASCII_fallback _ hd)) ⟨hne, hd, hv⟩

/-- Witness of `NetworkID_fallback_digits`: the curated value 1, the value
999999 and a numeral with leading zeros. -/
theorem NetworkID_fallback_digits_witness :
    NetworkID kelvinCaseTable "network-1" = (1, none) ∧
      NetworkID kelvinCaseTable "network-999999" = (999999, none) ∧
      NetworkID kelvinCaseTable "network-0042" = (42, none) :=
  ⟨NetworkID_fallback_digits kelvinCaseTable "1" (by decide) (by decide) (by decide),
    NetworkID_fallback_digits kelvinCaseTable "999999" (by decide) (by decide) (by decide),
    NetworkID_fallback_digits kelvinCaseTable "0042" (by decide) (by decide) (by decide)⟩

/-- C5: `NetworkID(name)` returns `(0, ErrUnknownNetworkName)` exactly when
the lowered name is not a key of `NetworkNameToNetworkID` and is not
`network-` followed by a 32 bit unsigned decimal; in every other case the
error is nil; `bogus` and `network-abc` fail. -/
theorem NetworkID_unknown_iff (caseTable : Char → Char) (name : String) :
    (NetworkID caseTable name = (0, some GoError.ErrUnknownNetworkName) ↔
        (ToLower caseTable name ∉ mapKeys NetworkNameToNetworkID ∧
          ¬ ∃ d, ToLower caseTable name = ValidNetworkPrefix ++ d ∧ isUint32Decimal d)) ∧
      (NetworkID caseTable name ≠ (0, some GoError.ErrUnknownNetworkName) →
        (NetworkID caseTable name).2 = none) ∧
      NetworkID caseTable "bogus" = (0, some GoError.ErrUnknownNetworkName) ∧
      NetworkID caseTable "network-abc" = (0, some GoError.ErrUnknownNetworkName) := by
  refine ⟨⟨?_, ?_⟩, ?_, ?_, ?_⟩
  · intro h
    constructor
    · intro hk
      obtain ⟨v, hv⟩ := (mapGet_isSome_iff _ _).2 hk
      rw [NetworkID_curated _ _ _ hv] at h
      exact absurd (congrArg Prod.snd h) (by simp)
    · rintro ⟨d, hd, hd2⟩
      rw [NetworkID_fallback _ _ _ hd hd2] at h
      exact absurd (congrArg Prod.snd h) (by simp)
  · rintro ⟨h1, h2⟩
    exact NetworkID_unknown _ _ ((mapGet_eq_none_iff _ _).2 h1) h2
  · intro h
    rcases NetworkID_cases caseTable name with h2 | h2
    · exact h2
    · exact absurd h2 h
  · rw [NetworkID_ascii caseTable (fun c => c) _ (by decide)]
    decide
  · rw [NetworkID_ascii caseTable (fun c => c) _ (by decide)]
    decide

/-- Witness of `NetworkID_unknown_iff`: a name that is neither curated nor a
fallback name has a non-nil error, and a resolvable name has a nil error. -/
theorem NetworkID_unknown_iff_witness :
    NetworkID kelvinCaseTable "network-4x" = (0, some GoError.ErrUnknownNetworkName) ∧
      (NetworkID kelvinCaseTable "Testing").2 = none :=
  ⟨(NetworkID_unknown_iff kelvinCaseTable "network-4x").1.2
      ⟨by decide, by
        rintro ⟨d, hd, -, hd2, -⟩
        have e : ToLower kelvinCaseTable "network-4x" = ValidNetworkPrefix ++ "4x" := by decide
        rw [e] at hd
        have e2 : d.data = "4x".data := by
          have := congrArg String.data hd
          rw [String.data_append, String.data_append] at this
          exact (List.append_cancel_left this).symm
        have hx := hd2 'x' (by rw [e2]; decide)
        revert hx
        decide⟩,
    (NetworkID_unknown_iff kelvinCaseTable "Testing").2.1 (by decide)⟩

/-- C6: `NetworkID` is case-insensitive: with case tables whose lower-case
forms are themselves in lower case, `NetworkID(s)` and
`NetworkID(strings.ToLower(s))` return the same pair for every string `s`;
`MAINNET` resolves like `mainnet` and `NETWORK-42` like `network-42`. -/
theorem NetworkID_case_insensitive (caseTable : Char → Char)
    (h : ∀ c : Char, 0x7F < c.toNat → unicodeToLower caseTable (caseTable c) = caseTable c)
    (s : String) :
    NetworkID caseTable s = NetworkID caseTable (ToLower caseTable s) ∧
      NetworkID caseTable "MAINNET" = NetworkID caseTable "mainnet" ∧
      NetworkID caseTable "NETWORK-42" = NetworkID caseTable "network-42" := by
  refine ⟨NetworkID_congr _ _ _ _ (ToLower_idem caseTable h s).symm, ?_, ?_⟩
  · rw [NetworkID_ascii caseTable (fun c => c) "MAINNET" (by decide),
      NetworkID_ascii caseTable (fun c => c) "mainnet" (by decide)]
    decide
  · rw [NetworkID_ascii caseTable (fun c => c) "NETWORK-42" (by decide),
      NetworkID_ascii caseTable (fun c => c) "network-42" (by decide)]
    decide

/-- Witness of `NetworkID_case_insensitive`: a name spelled with upper-case
letters and the Kelvin sign in place of the letter k. -/
theorem NetworkID_case_insensitive_witness :
    (∀ c : Char, 0x7F < c.toNat →
        unicodeToLower kelvinCaseTable (kelvinCaseTable c) = kelvinCaseTable c) ∧
      NetworkID kelvinCaseTable (String.mk ['N', 'E', 'T', 'w', 'o', 'r', Char.ofNat 0x212A, '-', '4', '2']) =
        NetworkID kelvinCaseTable (ToLower kelvinCaseTable
          (String.mk ['N', 'E', 'T', 'w', 'o', 'r', Char.ofNat 0x212A, '-', '4', '2'])) :=
  ⟨kelvinCaseTable_stable,
    (NetworkID_case_insensitive kelvinCaseTable kelvinCaseTable_stable _).1⟩

/-- C7: when the lowered name is a key of `NetworkNameToNetworkID`, whose keys
are `local`, `mainnet`, `testnet` and `testing`, `NetworkID` returns the
identifier stored for it (1337, 1, 2 and 369) with a nil error; the table
alone decides the result, and no key begins with `ValidNetworkPrefix`. -/
theorem NetworkID_curated_names (caseTable : Char → Char) (name : String) :
    (∀ id, mapGet NetworkNameToNetworkID (ToLower caseTable name) = some id →
        NetworkID caseTable name = (id, none)) ∧
      (ToLower caseTable name = "local" → NetworkID caseTable name = (1337, none)) ∧
      (ToLower caseTable name = "mainnet" → NetworkID caseTable name = (1, none)) ∧
      (ToLower caseTable name = "testnet" → NetworkID caseTable name = (2, none)) ∧
      (ToLower caseTable name = "testing" → NetworkID caseTable name = (369, none)) ∧
      mapKeys NetworkNameToNetworkID = ["local", "mainnet", "testnet", "testing"] ∧
      (∀ k ∈ mapKeys NetworkNameToNetworkID, HasPrefix k ValidNetworkPrefix = false) := by
  refine ⟨fun id h => NetworkID_curated _ _ _ h, ?_, ?_, ?_, ?_, rfl, by decide⟩ <;>
    · intro h
      exact NetworkID_curated _ _ _ (by rw [h]; decide)

/-- Witness of `NetworkID_curated_names` at mixed-case spellings of the four
curated names. -/
theorem NetworkID_curated_names_witness :
    NetworkID kelvinCaseTable "Local" = (1337, none) ∧
      NetworkID kelvinCaseTable "MainNet" = (1, none) ∧
      NetworkID kelvinCaseTable "TESTNET" = (2, none) ∧
      NetworkID kelvinCaseTable "testing" = (369, none) :=
  ⟨(NetworkID_curated_names kelvinCaseTable "Local").2.1 (by decide),
    (NetworkID_curated_names kelvinCaseTable "MainNet").2.2.1 (by decide),
    (NetworkID_curated_names kelvinCaseTable "TESTNET").2.2.2.1 (by decide),
    (NetworkID_curated_names kelvinCaseTable "testing").2.2.2.2.1 (by decide)⟩

/-- C8: for every identifier, `GetHRP` returns the entry of `NetworkIDToHRP`
when the identifier is a key of that table and `FallbackHRP`, the string
`custom`, otherwise; `NetworkIDToNetworkName` plays no part. -/
theorem GetHRP_spec (q1 q2 id : Nat) :
    (id ∈ mapKeys (NetworkIDToHRP q1 q2) →
        mapGet (NetworkIDToHRP q1 q2) id = some (GetHRP q1 q2 id)) ∧
      (id ∉ mapKeys (NetworkIDToHRP q1 q2) → GetHRP q1 q2 id = FallbackHRP) ∧
      FallbackHRP = "custom" := by
  refine ⟨?_, ?_, rfl⟩
  · intro hkey
    obtain ⟨v, hv⟩ := (mapGet_isSome_iff _ _).2 hkey
    unfold GetHRP
    rw [hv]
  · intro hkey
    unfold GetHRP
    rw [(mapGet_eq_none_iff _ _).2 hkey]

/-- Witness of `GetHRP_spec` at the sample Q-Chain identifiers 36963 and
36962: a registered identifier and an unregistered one. -/
theorem GetHRP_spec_witness :
    GetHRP 36963 36962 MainnetID = "lux" ∧ GetHRP 36963 36962 7 = "custom" :=
  ⟨Option.some.inj ((GetHRP_spec 36963 36962 MainnetID).1 (by decide)).symm,
    (GetHRP_spec 36963 36962 7).2.1 (by decide)⟩

/-- C9: every member of `ProductionNetworkIDs` is a key of
`NetworkIDToNetworkName`, so its `NetworkName` is the entry of that table,
which does not begin with `ValidNetworkPrefix` and is not the synthesized
fallback name. -/
theorem production_ids_curated (q1 q2 id : Nat) (h : id ∈ ProductionNetworkIDs) :
    id ∈ mapKeys (NetworkIDToNetworkName q1 q2) ∧
      mapGet (NetworkIDToNetworkName q1 q2) id = some (NetworkName q1 q2 id) ∧
      HasPrefix (NetworkName q1 q2 id) ValidNetworkPrefix = false ∧
      NetworkName q1 q2 id ≠ ValidNetworkPrefix ++ Nat.repr id := by
  have hkey : id ∈ mapKeys (NetworkIDToNetworkName q1 q2) := by
    rw [mapKeys_NetworkIDToNetworkName]
    unfold ProductionNetworkIDs at h
    simp only [List.mem_cons, List.mem_singleton, List.not_mem_nil, or_false] at h ⊢
    rcases h with h | h | h | h <;> simp [h]
  obtain ⟨v, hv⟩ := (mapGet_isSome_iff _ _).2 hkey
  have hname : NetworkName q1 q2 id = v := by
    unfold NetworkName
    rw [hv]
  have hshape := (curated_name_shape q1 q2 id v hv).2
  refine ⟨hkey, by rw [hname]; exact hv, by rw [hname]; exact hshape, ?_⟩
  intro hcontra
  rw [hname] at hcontra
  rw [hcontra, HasPrefix_append] at hshape
  exact absurd hshape (by simp)

/-- Witness of `production_ids_curated` at `LuxTestnetID` with sample Q-Chain
identifiers 36963 and 36962. -/
theorem production_ids_curated_witness :
    LuxTestnetID ∈ ProductionNetworkIDs ∧
      (LuxTestnetID ∈ mapKeys (NetworkIDToNetworkName 36963 36962) ∧
        mapGet (NetworkIDToNetworkName 36963 36962) LuxTestnetID =
          some (NetworkName 36963 36962 LuxTestnetID) ∧
        HasPrefix (NetworkName 36963 36962 LuxTestnetID) ValidNetworkPrefix = false ∧
        NetworkName 36963 36962 LuxTestnetID ≠ ValidNetworkPrefix ++ Nat.repr LuxTestnetID) :=
  ⟨by decide, production_ids_curated 36963 36962 LuxTestnetID (by decide)⟩

/-- C10: every key of `NetworkIDToNetworkName` is a key of `NetworkIDToHRP`, so
`GetHRP` of an identifier with a curated name returns the entry of
`NetworkIDToHRP`, which is never `FallbackHRP`. -/
theorem curated_ids_have_HRP (q1 q2 id : Nat)
    (h : id ∈ mapKeys (NetworkIDToNetworkName q1 q2)) :
    id ∈ mapKeys (NetworkIDToHRP q1 q2) ∧
      mapGet (NetworkIDToHRP q1 q2) id = some (GetHRP q1 q2 id) ∧
      GetHRP q1 q2 id ≠ FallbackHRP := by
  have hkey : id ∈ mapKeys (NetworkIDToHRP q1 q2) := by
    rw [mapKeys_NetworkIDToHRP]
    rw [mapKeys_NetworkIDToNetworkName] at h
    exact h
  obtain ⟨v, hv⟩ := (mapGet_isSome_iff _ _).2 hkey
  have hget : GetHRP q1 q2 id = v := by
    unfold GetHRP
    rw [hv]
  exact ⟨hkey, by rw [hget]; exact hv, by rw [hget]; exact registered_HRP_ne_fallback q1 q2 id v hv⟩

/-- Witness of `curated_ids_have_HRP` at the Q-Chain mainnet identifier, here
36963. -/
theorem curated_ids_have_HRP_witness :
    36963 ∈ mapKeys (NetworkIDToNetworkName 36963 36962) ∧
      (36963 ∈ mapKeys (NetworkIDToHRP 36963 36962) ∧
        mapGet (NetworkIDToHRP 36963 36962) 36963 = some (GetHRP 36963 36962 36963) ∧
        GetHRP 36963 36962 36963 ≠ FallbackHRP) :=
  ⟨by decide, curated_ids_have_HRP 36963 36962 36963 (by decide)⟩

/-! ## The tables when the keys of the literals are pairwise distinct -/

/-- With pairwise distinct keys every base entry of `NetworkIDToNetworkName` is
the one `NetworkName` returns. -/
theorem NetworkName_curated_values (q1 q2 : Nat)
    (hk : (mapKeys (NetworkIDToNetworkName q1 q2)).Nodup) :
    NetworkName q1 q2 LocalID = LocalName ∧ NetworkName q1 q2 MainnetID = MainnetName ∧
      NetworkName q1 q2 TestnetID = TestnetName ∧
      NetworkName q1 q2 UnitTestID = UnitTestName ∧
      NetworkName q1 q2 LuxMainnetID = MainnetName ∧
      NetworkName q1 q2 LuxTestnetID = TestnetName := by
  rw [mapKeys_NetworkIDToNetworkName] at hk
  simp only [List.nodup_cons, List.mem_cons, List.mem_singleton, not_or, List.not_mem_nil,
    not_false_eq_true, List.nodup_nil, and_true] at hk
  obtain ⟨⟨-, -, -, -, -, a1, a2⟩, ⟨-, -, -, -, b1, b2⟩, ⟨-, -, -, c1, c2⟩, ⟨-, -, d1, d2⟩,
    ⟨-, e1, e2⟩, ⟨f1, f2⟩, -⟩ := hk
  unfold NetworkName
  simp only [mapGet_NetworkIDToNetworkName]
  rw [if_neg (Ne.symm a2), if_neg (Ne.symm a1), if_neg (Ne.symm b2), if_neg (Ne.symm b1),
    if_neg (Ne.symm c2), if_neg (Ne.symm c1), if_neg (Ne.symm d2), if_neg (Ne.symm d1),
    if_neg (Ne.symm e2), if_neg (Ne.symm e1), if_neg (Ne.symm f2), if_neg (Ne.symm f1)]
  exact ⟨rfl, rfl, rfl, rfl, rfl, rfl⟩

/-- With pairwise distinct keys every base entry of `NetworkIDToHRP` is the one
`GetHRP` returns. -/
theorem GetHRP_registered_values (q1 q2 : Nat)
    (hk : (mapKeys (NetworkIDToHRP q1 q2)).Nodup) :
    GetHRP q1 q2 LocalID = LocalHRP ∧ GetHRP q1 q2 MainnetID = MainnetHRP ∧
      GetHRP q1 q2 TestnetID = TestnetHRP ∧ GetHRP q1 q2 UnitTestID = UnitTestHRP := by
  rw [mapKeys_NetworkIDToHRP] at hk
  simp only [List.nodup_cons, List.mem_cons, List.mem_singleton, not_or, List.not_mem_nil,
    not_false_eq_true, List.nodup_nil, and_true] at hk
  obtain ⟨⟨-, -, -, -, -, a1, a2⟩, ⟨-, -, -, -, b1, b2⟩, ⟨-, -, -, c1, c2⟩, ⟨-, -, d1, d2⟩,
    -⟩ := hk
  unfold GetHRP
  simp only [mapGet_NetworkIDToHRP]
  rw [if_neg (Ne.symm a2), if_neg (Ne.symm a1), if_neg (Ne.symm b2), if_neg (Ne.symm b1),
    if_neg (Ne.symm c2), if_neg (Ne.symm c1), if_neg (Ne.symm d2), if_neg (Ne.symm d1)]
  exact ⟨rfl, rfl, rfl, rfl⟩

theorem stringBytes_append (a b : String) :
    stringBytes (a ++ b) = stringBytes a ++ stringBytes b := by
  unfold stringBytes
  rw [String.data_append, List.map_append, List.flatten_append]

theorem String_append_cancel_left (pre a b : String) (h : pre ++ a = pre ++ b) : a = b := by
  have h2 := congrArg String.data h
  rw [String.data_append, String.data_append] at h2
  exact String.ext (List.append_cancel_left h2)

/-- The three possible results of `CompressionType.String`. -/
theorem CompressionType_String_cases (t : CompressionType) :
    (t = CompressionTypeNone ∧ CompressionType.String t = "none") ∨
      (t = CompressionTypeZstd ∧ CompressionType.String t = "zstd") ∨
      (t ≠ CompressionTypeNone ∧ t ≠ CompressionTypeZstd ∧
        CompressionType.String t = "unknown") := by
  unfold CompressionType.String
  by_cases h1 : t = CompressionTypeNone
  · left
    exact ⟨h1, by rw [if_pos h1]⟩
  · by_cases h2 : t = CompressionTypeZstd
    · right; left
      exact ⟨h2, by rw [if_neg h1, if_pos h2]⟩
    · right; right
      exact ⟨h1, h2, by rw [if_neg h1, if_neg h2]⟩

/-! ## Claims on compression.go -/

/-- C11: `CompressionType.String` is total: it returns `none` for
`CompressionTypeNone`, which is 1, `zstd` for `CompressionTypeZstd`, which is
2, and `unknown` for every other value, the zero value included; the result
is never the empty string. -/
theorem CompressionType_String_total (t : CompressionType) :
    CompressionType.String t =
        (if t = 1 then "none" else if t = 2 then "zstd" else "unknown") ∧
      CompressionTypeNone = 1 ∧ CompressionTypeZstd = 2 ∧
      CompressionType.String CompressionTypeNone = "none" ∧
      CompressionType.String CompressionTypeZstd = "zstd" ∧
      CompressionType.String 0 = "unknown" ∧
      (t ≠ CompressionTypeNone → t ≠ CompressionTypeZstd →
        CompressionType.String t = "unknown") ∧
      CompressionType.String t ≠ "" := by
  refine ⟨rfl, rfl, rfl, rfl, rfl, rfl, ?_, ?_⟩
  · intro h1 h2
    rcases CompressionType_String_cases t with h | h | h
    · exact absurd h.1 h1
    · exact absurd h.1 h2
    · exact h.2.2
  · rcases CompressionType_String_cases t with h | h | h
    · rw [h.2]; decide
    · rw [h.2]; decide
    · rw [h.2.2]; decide

/-- Witness of `CompressionType_String_total` at the largest byte value. -/
theorem CompressionType_String_total_witness :
    CompressionType.String 255 = "unknown" ∧ CompressionType.String 255 ≠ "" :=
  ⟨(CompressionType_String_total 255).2.2.2.2.2.2.1 (by decide) (by decide),
    (CompressionType_String_total 255).2.2.2.2.2.2.2⟩

/-- C12: for each of the two defined variants `v`,
`CompressionTypeFromString(v.String())` returns `(v, nil)`. -/
theorem CompressionTypeFromString_String (v : CompressionType)
    (h : v = CompressionTypeNone ∨ v = CompressionTypeZstd) :
    CompressionTypeFromString (CompressionType.String v) = (v, none) := by
  rcases h with rfl | rfl
  · unfold CompressionTypeFromString
    rw [if_pos rfl]
  · unfold CompressionTypeFromString
    rw [if_neg (by decide), if_pos rfl]

/-- Witness of `CompressionTypeFromString_String` at both variants. -/
theorem CompressionTypeFromString_String_witness :
    CompressionTypeFromString (CompressionType.String CompressionTypeNone) =
        (CompressionTypeNone, none) ∧
      CompressionTypeFromString (CompressionType.String CompressionTypeZstd) =
        (CompressionTypeZstd, none) :=
  ⟨CompressionTypeFromString_String CompressionTypeNone (Or.inl rfl),
    CompressionTypeFromString_String CompressionTypeZstd (Or.inr rfl)⟩

/-- C13: `CompressionTypeFromString(s)` fails with `errUnknownCompressionType`
exactly when `s` is neither `none` nor `zstd`, compared case-sensitively; it
then returns `CompressionTypeNone` beside the error; `unknown`, the empty
string and `NONE` are rejected. -/
theorem CompressionTypeFromString_error_iff (s : String) :
    ((CompressionTypeFromString s).2 = some GoError.errUnknownCompressionType ↔
        (s ≠ "none" ∧ s ≠ "zstd")) ∧
      ((CompressionTypeFromString s).2 = none ↔ (s = "none" ∨ s = "zstd")) ∧
      (s ≠ "none" → s ≠ "zstd" → CompressionTypeFromString s =
        (CompressionTypeNone, some GoError.errUnknownCompressionType)) ∧
      (CompressionTypeFromString "unknown").2 = some GoError.errUnknownCompressionType ∧
      (CompressionTypeFromString "").2 = some GoError.errUnknownCompressionType ∧
      (CompressionTypeFromString "NONE").2 = some GoError.errUnknownCompressionType := by
  have e1 : CompressionType.String CompressionTypeNone = "none" := rfl
  have e2 : CompressionType.String CompressionTypeZstd = "zstd" := rfl
  refine ⟨?_, ?_, ?_, by decide, by decide, by decide⟩
  · unfold CompressionTypeFromString
    rw [e1, e2]
    by_cases h1 : s = "none"
    · simp [h1]
    · by_cases h2 : s = "zstd"
      · rw [if_neg h1, if_pos h2]
        simp [h2]
      · rw [if_neg h1, if_neg h2]
        simp [h1, h2]
  · unfold CompressionTypeFromString
    rw [e1, e2]
    by_cases h1 : s = "none"
    · simp [h1]
    · by_cases h2 : s = "zstd"
      · rw [if_neg h1, if_pos h2]
        simp [h2]
      · rw [if_neg h1, if_neg h2]
        simp [h1, h2]
  · intro h1 h2
    unfold CompressionTypeFromString
    rw [e1, e2, if_neg h1, if_neg h2]

/-- Witness of `CompressionTypeFromString_error_iff`: a name in another case
is rejected with `CompressionTypeNone` beside the error. -/
theorem CompressionTypeFromString_error_iff_witness :
    CompressionTypeFromString "Zstd" =
      (CompressionTypeNone, some GoError.errUnknownCompressionType) :=
  (CompressionTypeFromString_error_iff "Zstd").2.2.1 (by decide) (by decide)

/-- C14: for every value `t`, `MarshalJSON` returns a nil error and exactly the
bytes of a double quote, of `t.String()` and of a double quote; for
`CompressionTypeNone` these are the six bytes of the quoted word `none`, for
`CompressionTypeZstd` those of the quoted word `zstd`. -/
theorem MarshalJSON_bytes (t : CompressionType) :
    CompressionType.MarshalJSON t =
        ([34] ++ stringBytes (CompressionType.String t) ++ [34], none) ∧
      CompressionType.MarshalJSON CompressionTypeNone =
        ([34, 110, 111, 110, 101, 34], none) ∧
      CompressionType.MarshalJSON CompressionTypeZstd =
        ([34, 122, 115, 116, 100, 34], none) ∧
      stringBytes "none" = [110, 111, 110, 101] ∧
      stringBytes "zstd" = [122, 115, 116, 100] := by
  refine ⟨?_, by decide, by decide, by decide, by decide⟩
  unfold CompressionType.MarshalJSON Builder.WriteString Builder.String
  simp only [stringBytes_append]
  have hq : stringBytes (String.singleton (Char.ofNat 34)) = [34] := by decide
  have he : stringBytes "" = [] := by decide
  rw [hq, he]
  rfl

/-! ## Further claims on network.go -/

/-- C15: for every string `d` of ASCII decimal digits whose value is `2 ^ 32`
or more, `NetworkID("network-" + d)` returns `(0, ErrUnknownNetworkName)`: the
suffix is rejected, not truncated or wrapped into an identifier. -/
theorem NetworkID_out_of_range (caseTable : Char → Char) (d : String)
    (hd : ∀ c ∈ d.data, isDigitChar c) (hv : 2 ^ 32 ≤ decimalValue d) :
    NetworkID caseTable (ValidNetworkPrefix ++ d) =
      (0, some GoError.ErrUnknownNetworkName) := by
  have hlow : ToLower caseTable (ValidNetworkPrefix ++ d) = ValidNetworkPrefix ++ d :=
    ToLower_of_isLowerASCII _ _ (isLowerASCII_fallback _ hd)
  apply NetworkID_unknown
  · rw [hlow]
    exact mapGet_name_fallback d
  · rintro ⟨d2, h1, -, -, h3⟩
    rw [hlow] at h1
    rw [← String_append_cancel_left _ _ _ h1] at h3
    omega

/-- Witness of `NetworkID_out_of_range`: the first value that does not fit 32
bits, and a value that does not fit 64 bits. -/
theorem NetworkID_out_of_range_witness :
    NetworkID kelvinCaseTable "network-4294967296" =
        (0, some GoError.ErrUnknownNetworkName) ∧
      NetworkID kelvinCaseTable "network-18446744073709551617" =
        (0, some GoError.ErrUnknownNetworkName) :=
  ⟨NetworkID_out_of_range kelvinCaseTable "4294967296" (by decide) (by decide),
    NetworkID_out_of_range kelvinCaseTable "18446744073709551617" (by decide) (by decide)⟩

/-- C16: `NetworkName` is not injective on the curated table: when the keys of
the literal are pairwise distinct, the distinct identifiers `MainnetID = 1`
and `LuxMainnetID = 96369` both have the name `mainnet`, and `TestnetID = 2`
and `LuxTestnetID = 96368` both have the name `testnet`. -/
theorem NetworkName_not_injective (q1 q2 : Nat)
    (hk : (mapKeys (NetworkIDToNetworkName q1 q2)).Nodup) :
    (MainnetID = 1 ∧ LuxMainnetID = 96369 ∧ MainnetID ≠ LuxMainnetID ∧
        NetworkName q1 q2 MainnetID = "mainnet" ∧
        NetworkName q1 q2 LuxMainnetID = "mainnet") ∧
      (TestnetID = 2 ∧ LuxTestnetID = 96368 ∧ TestnetID ≠ LuxTestnetID ∧
        NetworkName q1 q2 TestnetID = "testnet" ∧
        NetworkName q1 q2 LuxTestnetID = "testnet") ∧
      ∃ a b, a ∈ mapKeys (NetworkIDToNetworkName q1 q2) ∧
        b ∈ mapKeys (NetworkIDToNetworkName q1 q2) ∧ a ≠ b ∧
        NetworkName q1 q2 a = NetworkName q1 q2 b := by
  obtain ⟨-, h1, h2, -, h3, h4⟩ := NetworkName_curated_values q1 q2 hk
  refine ⟨⟨rfl, rfl, by decide, h1, h3⟩, ⟨rfl, rfl, by decide, h2, h4⟩,
    MainnetID, LuxMainnetID, ?_, ?_, by decide, h1.trans h3.symm⟩
  · rw [mapKeys_NetworkIDToNetworkName]
    simp
  · rw [mapKeys_NetworkIDToNetworkName]
    simp

/-- Witness of `NetworkName_not_injective` at the sample Q-Chain identifiers
36963 and 36962. -/
theorem NetworkName_not_injective_witness :
    (mapKeys (NetworkIDToNetworkName 36963 36962)).Nodup ∧
      NetworkName 36963 36962 1 = "mainnet" ∧ NetworkName 36963 36962 96369 = "mainnet" ∧
      NetworkName 36963 36962 2 = "testnet" ∧ NetworkName 36963 36962 96368 = "testnet" :=
  ⟨by decide,
    (NetworkName_not_injective 36963 36962 (by decide)).1.2.2.2.1,
    (NetworkName_not_injective 36963 36962 (by decide)).1.2.2.2.2,
    (NetworkName_not_injective 36963 36962 (by decide)).2.1.2.2.2.1,
    (NetworkName_not_injective 36963 36962 (by decide)).2.1.2.2.2.2⟩

/-- C17: when the keys of the literal `NetworkIDToNetworkName` are pairwise
distinct, `NetworkName(id) = name` for every entry `(name, id)` of
`NetworkNameToNetworkID`; hence for every string whose lowered form is a
curated key, `NetworkID` has a nil error and `NetworkName` of its identifier is
the lowered string. -/
theorem NetworkName_NetworkID_curated (caseTable : Char → Char) (q1 q2 : Nat) (s : String)
    (hk : (mapKeys (NetworkIDToNetworkName q1 q2)).Nodup) :
    (∀ e ∈ NetworkNameToNetworkID, NetworkName q1 q2 e.2 = e.1) ∧
      (ToLower caseTable s ∈ mapKeys NetworkNameToNetworkID →
        (NetworkID caseTable s).2 = none ∧
          NetworkName q1 q2 (NetworkID caseTable s).1 = ToLower caseTable s) := by
  obtain ⟨h1, h2, h3, h4, -, -⟩ := NetworkName_curated_values q1 q2 hk
  constructor
  · intro e he
    unfold NetworkNameToNetworkID at he
    simp only [List.mem_cons, List.mem_singleton, List.not_mem_nil, or_false] at he
    rcases he with rfl | rfl | rfl | rfl
    · exact h1
    · exact h2
    · exact h3
    · exact h4
  · intro hs
    rw [mapKeys_NetworkNameToNetworkID] at hs
    simp only [List.mem_cons, List.mem_singleton, List.not_mem_nil, or_false] at hs
    rcases hs with h | h | h | h
    · rw [NetworkID_curated caseTable s LocalID (by rw [h]; decide), h]
      exact ⟨rfl, h1⟩
    · rw [NetworkID_curated caseTable s MainnetID (by rw [h]; decide), h]
      exact ⟨rfl, h2⟩
    · rw [NetworkID_curated caseTable s TestnetID (by rw [h]; decide), h]
      exact ⟨rfl, h3⟩
    · rw [NetworkID_curated caseTable s UnitTestID (by rw [h]; decide), h]
      exact ⟨rfl, h4⟩

/-- Witness of `NetworkName_NetworkID_curated` at a mixed-case spelling and the
sample Q-Chain identifiers 36963 and 36962. -/
theorem NetworkName_NetworkID_curated_witness :
    (mapKeys (NetworkIDToNetworkName 36963 36962)).Nodup ∧
      ToLower kelvinCaseTable "TestNet" ∈ mapKeys NetworkNameToNetworkID ∧
      (NetworkID kelvinCaseTable "TestNet").2 = none ∧
      NetworkName 36963 36962 (NetworkID kelvinCaseTable "TestNet").1 =
        ToLower kelvinCaseTable "TestNet" :=
  ⟨by decide, by decide,
    (NetworkName_NetworkID_curated kelvinCaseTable 36963 36962 "TestNet" (by decide)).2
      (by decide)⟩

/-- C18: no name written in `NetworkIDToNetworkName` and no key of
`NetworkNameToNetworkID` begins with `ValidNetworkPrefix`, so for every
identifier `NetworkName` begins with `network-` exactly when the identifier is
not a key of `NetworkIDToNetworkName`. -/
theorem NetworkName_prefix_iff (q1 q2 id : Nat) :
    (∀ e ∈ NetworkIDToNetworkName q1 q2, HasPrefix e.2 ValidNetworkPrefix = false) ∧
      (∀ k ∈ mapKeys NetworkNameToNetworkID, HasPrefix k ValidNetworkPrefix = false) ∧
      (HasPrefix (NetworkName q1 q2 id) ValidNetworkPrefix = true ↔
        id ∉ mapKeys (NetworkIDToNetworkName q1 q2)) := by
  refine ⟨?_, by decide, ?_, ?_⟩
  · intro e he
    unfold NetworkIDToNetworkName at he
    simp only [List.mem_cons, List.mem_singleton, List.not_mem_nil, or_false] at he
    rcases he with rfl | rfl | rfl | rfl | rfl | rfl | rfl | rfl <;> rfl
  · intro h hkey
    obtain ⟨v, hv⟩ := (mapGet_isSome_iff _ _).2 hkey
    have hname : NetworkName q1 q2 id = v := by
      unfold NetworkName
      rw [hv]
    rw [hname, (curated_name_shape q1 q2 id v hv).2] at h
    exact absurd h (by simp)
  · intro hkey
    have hname : NetworkName q1 q2 id = ValidNetworkPrefix ++ fmtInteger id := by
      unfold NetworkName
      rw [(mapGet_eq_none_iff _ _).2 hkey]
    rw [hname]
    exact HasPrefix_append _ _

/-- Witness of `NetworkName_prefix_iff` at the sample Q-Chain identifiers 36963
and 36962: an identifier outside the table and one inside. -/
theorem NetworkName_prefix_iff_witness :
    HasPrefix (NetworkName 36963 36962 7) ValidNetworkPrefix = true ∧
      ¬ HasPrefix (NetworkName 36963 36962 36963) ValidNetworkPrefix = true :=
  ⟨(NetworkName_prefix_iff 36963 36962 7).2.2.2 (by decide),
    fun h => (NetworkName_prefix_iff 36963 36962 36963).2.2.1 h (by decide)⟩

/-- C19: when the keys of the literal `NetworkIDToHRP` are pairwise distinct,
`GetHRP(id) = hrp` for every entry `(hrp, id)` of `NetworkHRPToNetworkID`,
which are `local` for 1337, `lux` for 1, `test` for 2 and `testing` for 369,
and none of these prefixes is `FallbackHRP`. -/
theorem GetHRP_reverse_consistent (q1 q2 : Nat)
    (hk : (mapKeys (NetworkIDToHRP q1 q2)).Nodup) :
    (∀ e ∈ NetworkHRPToNetworkID, GetHRP q1 q2 e.2 = e.1 ∧ e.1 ≠ FallbackHRP) ∧
      NetworkHRPToNetworkID =
        [("local", 1337), ("lux", 1), ("test", 2), ("testing", 369)] ∧
      FallbackHRP = "custom" := by
  obtain ⟨h1, h2, h3, h4⟩ := GetHRP_registered_values q1 q2 hk
  refine ⟨?_, rfl, rfl⟩
  intro e he
  unfold NetworkHRPToNetworkID at he
  simp only [List.mem_cons, List.mem_singleton, List.not_mem_nil, or_false] at he
  rcases he with rfl | rfl | rfl | rfl
  · exact ⟨h1, by decide⟩
  · exact ⟨h2, by decide⟩
  · exact ⟨h3, by decide⟩
  · exact ⟨h4, by decide⟩

/-- Witness of `GetHRP_reverse_consistent` at the sample Q-Chain identifiers
36963 and 36962 and the entry of `lux`. -/
theorem GetHRP_reverse_consistent_witness :
    (mapKeys (NetworkIDToHRP 36963 36962)).Nodup ∧
      GetHRP 36963 36962 1 = "lux" ∧ "lux" ≠ FallbackHRP :=
  ⟨by decide,
    (GetHRP_reverse_consistent 36963 36962 (by decide)).1 ("lux", 1) (by decide)⟩

end Constants
